import Mathlib

/-!
# Verification of the excel-copilot speculative-edit staging engine

Shallow embedding of `src/addin/src/SheetConnector.ts` (the preview
transaction manager, style model, address arithmetic and formatting
projection renderer) with theorems settling the specification claims.

The external Excel document is modelled as a map from range addresses to
grids of cells; Office.js enum values (border styles, alignments) are
modelled as strings, and JavaScript truthiness checks are translated
explicitly (an absent/`undefined` field is `Option.none`, a present field
is `some`, and a guard `if (x)` on a string/number value additionally
tests for the empty string / zero).
-/

namespace ExcelCopilot

/-- JS `String.prototype.toLowerCase()` on one ASCII character. -/
def lowerChar (c : Char) : Char :=
  if 65 ≤ c.toNat ∧ c.toNat ≤ 90 then Char.ofNat (c.toNat + 32) else c

/-- JS `String.prototype.toLowerCase()` (all strings compared by the
source are ASCII). -/
def toLowerJS (s : String) : String := ⟨s.data.map lowerChar⟩

/-- JS `String.prototype.includes(ch)` for a one-character needle. -/
def includesChar (s : String) (ch : Char) : Bool := s.data.any (fun c => c = ch)

/-! ## Address arithmetic (`colToNum` / `numToCol`, SheetConnector.ts lines 518-534) -/

/-- The `colToNum` loop on a list of characters: `num = num * 26 + (charCode - 64)`,
folded over the string left to right (A=1 .. Z=26). -/
def colToNumL (s : List Char) : Nat :=
  s.foldl (fun num c => num * 26 + (c.toNat - 64)) 0

/-- The `numToCol` loop: repeatedly prepend `fromCharCode(65 + (n-1) % 26)` and
divide `n-1` by 26, until `n = 0` (bijective base-26 encode). -/
def numToColL (n : Nat) : List Char :=
  if _h : n = 0 then []
  else numToColL ((n - 1) / 26) ++ [Char.ofNat (65 + (n - 1) % 26)]
decreasing_by
  have h1 : (n - 1) / 26 ≤ n - 1 := Nat.div_le_self _ _
  omega

/-- String wrapper for `colToNum`. -/
def colToNum (s : String) : Nat := colToNumL s.data

/-- String wrapper for `numToCol`. -/
def numToCol (n : Nat) : String := ⟨numToColL n⟩

/-! ## Style model (`CellStyle`, SheetConnector.ts lines 15-32, 476-503) -/

/-- Model of an Office.js border state for one range: the preview marker
sets style/color/weight on the four edge borders uniformly, so one record
per cell suffices. -/
structure BorderState where
  style : String
  color : String
  weight : String
deriving DecidableEq, Repr

/-- The `CellStyle.font` record from the source: every field optional (`none` models
a JavaScript `undefined` or `null` value). -/
structure FontStyle where
  bold : Option Bool := none
  italic : Option Bool := none
  color : Option String := none
  name : Option String := none
  size : Option Nat := none
  underline : Option String := none
deriving DecidableEq, Repr

/-- The `CellStyle.fill` record from the source. -/
structure FillStyle where
  color : Option String := none
deriving DecidableEq, Repr

/-- The `CellStyle` record from the source: an optional subset of a cell's visual
formatting. `borders` is the opaque captured border blob. -/
structure CellStyle where
  font : Option FontStyle := none
  fill : Option FillStyle := none
  numberFormat : Option String := none
  horizontalAlignment : Option String := none
  verticalAlignment : Option String := none
  wrapText : Option Bool := none
  borders : Option BorderState := none
deriving DecidableEq, Repr

/-- A scalar cell value as stored in the document. -/
inductive CellValue
  | num (n : Int)
  | str (s : String)
  | empty
deriving DecidableEq, Repr

/-- Concrete state of one document cell (the external Excel resource):
every visual property has a definite value. -/
structure Cell where
  value : CellValue
  formula : Option String := none
  bold : Bool := false
  italic : Bool := false
  fontColor : String := "#000000"
  fontName : String := "Calibri"
  fontSize : Nat := 11
  underline : String := "None"
  fillColor : String := "#FFFFFF"
  numberFormat : String := "General"
  hAlign : String := "General"
  vAlign : String := "Bottom"
  wrapText : Bool := false
  border : BorderState := ⟨"None", "#000000", "Thin"⟩
deriving DecidableEq, Repr

/-- JS guard `if (x !== undefined) prop = x` for a boolean field
(used for `font.bold` and `font.italic`). -/
def applyBoolDefined (cur : Bool) (o : Option Bool) : Bool :=
  match o with
  | some b => b
  | none => cur

/-- JS truthiness guard `if (x) prop = x` for a string field: an absent,
null or empty-string value leaves the property untouched. -/
def applyStr (cur : String) (o : Option String) : String :=
  match o with
  | some s => if s = "" then cur else s
  | none => cur

/-- JS truthiness guard `if (x) prop = x` for a numeric field: absent or
zero leaves the property untouched (used for `font.size`). -/
def applyNat (cur : Nat) (o : Option Nat) : Nat :=
  match o with
  | some n => if n = 0 then cur else n
  | none => cur

/-- JS truthiness guard `if (x) prop = x` for a boolean field: only a
present `true` is written (used for `wrapText`). -/
def applyBoolTruthy (cur : Bool) (o : Option Bool) : Bool :=
  match o with
  | some true => true
  | _ => cur

/-- Source function `applyCellStyle(range, style)` (SheetConnector.ts lines 476-503):
merge each present (truthy) field of the style into the cell.  The
captured `borders` blob is never written back (the source has no border
branch), and a `none` style is a no-op. -/
def applyCellStyle (cell : Cell) (style : Option CellStyle) : Cell :=
  match style with
  | none => cell
  | some s =>
    let c1 :=
      match s.font with
      | none => cell
      | some f =>
        { cell with
          bold := applyBoolDefined cell.bold f.bold
          italic := applyBoolDefined cell.italic f.italic
          fontColor := applyStr cell.fontColor f.color
          fontName := applyStr cell.fontName f.name
          fontSize := applyNat cell.fontSize f.size
          underline := applyStr cell.underline f.underline }
    let c2 :=
      match s.fill with
      | none => c1
      | some fl => { c1 with fillColor := applyStr c1.fillColor fl.color }
    let c3 := { c2 with numberFormat := applyStr c2.numberFormat s.numberFormat }
    let c4 := { c3 with
                hAlign := applyStr c3.hAlign s.horizontalAlignment
                vAlign := applyStr c3.vAlign s.verticalAlignment }
    { c4 with wrapText := applyBoolTruthy c4.wrapText s.wrapText }

/-- Cell-level style capture used by `captureRangeFormatting`
(SheetConnector.ts lines 900-917): every property is captured as present;
the two `|| null` coercions turn an empty color string into `null`
(modelled as `none`); the border blob is captured verbatim. -/
def captureStyle (cell : Cell) : CellStyle :=
  { font := some
      { bold := some cell.bold
        italic := some cell.italic
        color := if cell.fontColor = "" then none else some cell.fontColor
        name := some cell.fontName
        size := some cell.fontSize
        underline := some cell.underline }
    fill := some { color := if cell.fillColor = "" then none else some cell.fillColor }
    numberFormat := some cell.numberFormat
    horizontalAlignment := some cell.hAlign
    verticalAlignment := some cell.vAlign
    wrapText := some cell.wrapText
    borders := some cell.border }

/-! ## Document model and action ops -/

/-- A rectangular grid of cells (the content of one range). -/
abbrev Grid := List (List Cell)

/-- The external document: a map from range address to the grid of cells
there.  The preview engine only touches the grids of the op ranges, and
distinct addresses denote disjoint regions. -/
abbrev Doc := String → Grid

/-- The `ActionOp.type` field — the `"write" | "formula"` union. -/
inductive OpType
  | write
  | formula
deriving DecidableEq, Repr

/-- The `ActionOp` record (SheetConnector.ts lines 4-12): one op targets one range;
`values` and `formula` are optional payloads. -/
structure ActionOp where
  id : String := ""
  range : String
  type : OpType
  values : Option (List (List CellValue)) := none
  formula : Option String := none
deriving Repr

/-- The `OriginalCellState` record (SheetConnector.ts lines 55-58): the snapshot of a
range taken when it is first drafted: values plus cell-by-cell styles. -/
structure OriginalCellState where
  values : List (List CellValue)
  formatting : List (List CellStyle)
deriving DecidableEq, Repr

/-- The preview session fields of `SheetConnector`
(`originalCellData` / `previewAppliedRanges`, lines 856-857). -/
structure PreviewSession where
  originalCellData : String → Option OriginalCellState := fun _ => none
  previewAppliedRanges : List String := []

/-- The cleared session (both fields reset, as in lines 962-963). -/
def emptySession : PreviewSession := {}

/-- Reading `range.values` of a grid. -/
def captureValues (g : Grid) : List (List CellValue) :=
  g.map (fun row => row.map (·.value))

/-- Source function `captureRangeFormatting` (lines 881-921): cell-by-cell style capture. -/
def captureFormatting (g : Grid) : List (List CellStyle) :=
  g.map (fun row => row.map captureStyle)

/-- Host assignment `range.values = vals`: each cell takes the new scalar
value and loses any formula.  (The host requires matching dimensions; all
uses below have them.) -/
def writeValues (g : Grid) (vals : List (List CellValue)) : Grid :=
  g.zipWith (fun row vrow =>
    row.zipWith (fun c v => { c with value := v, formula := none }) vrow) vals

/-- Host assignment `range.formulas = fm`: each cell takes the formula
string.  (The host requires matching dimensions; a mismatched matrix is
rejected by Excel — the model writes the overlapping prefix, and nothing
below depends on the mismatched case.) -/

def writeFormulas (g : Grid) (fm : List (List String)) : Grid :=
  g.zipWith (fun row frow =>
    row.zipWith (fun c f => { c with formula := some f }) frow) fm

/-- The formula matrix the direct-apply path builds for a `formula` op
(`applyOps`, lines 375-387): a single cell gets `[[f]]`, a larger range
gets a `rowCount x columnCount` matrix filled with the same formula. -/
def applyOpsFormulaMatrix (rows cols : Nat) (f : String) : List (List String) :=
  if rows = 1 ∧ cols = 1 then [[f]]
  else List.replicate rows (List.replicate cols f)

/-- The formula matrix the preview-staging path assigns for a `formula`
op (`applyPreview`, line 991): always the 1x1 matrix `[[op.formula]]`. -/
def applyPreviewFormulaMatrix (f : String) : List (List String) := [[f]]

/-- A full broadcast of one formula string over a `rows x cols` range. -/
def broadcastMatrix (rows cols : Nat) (f : String) : List (List String) :=
  List.replicate rows (List.replicate cols f)

/-- The dashed accent-colored draft marker applied to staged ranges
(`applyPreview`, lines 1003-1008). -/
def previewBorder : BorderState := ⟨"Dash", "#0078D4", "Thin"⟩

/-- Apply the draft marker border to every cell of a grid. -/
def applyPreviewBorderMarker (g : Grid) : Grid :=
  g.map (·.map (fun c => { c with border := previewBorder }))

/-- Point update of the document at one address. -/
def updateDoc (doc : Doc) (addr : String) (g : Grid) : Doc :=
  fun a => if a = addr then g else doc a

/-- The value/formula write of one op during staging (`applyPreview`,
lines 986-995): a `write` op with values assigns them; a `formula` op
with a (truthy) formula assigns the 1x1 matrix `[[op.formula]]`; anything
else changes nothing. -/
def applyOpContent (g : Grid) (op : ActionOp) : Grid :=
  match op.type, op.values, op.formula with
  | .write, some vals, _ => writeValues g vals
  | .formula, _, some f =>
    if f = "" then g else writeFormulas g (applyPreviewFormulaMatrix f)
  | _, _, _ => g

/-- One iteration of the staging loop (`applyPreview`, lines 965-1012):
skip ops with an empty range; snapshot the range (unconditionally),
record it in `previewAppliedRanges`, write the op content, then apply the
draft border marker. -/
def applyPreviewStep (doc : Doc) (st : PreviewSession) (op : ActionOp) :
    Doc × PreviewSession :=
  if op.range = "" then (doc, st)
  else
    let g := doc op.range
    let snap : OriginalCellState := ⟨captureValues g, captureFormatting g⟩
    let st' : PreviewSession :=
      { originalCellData := fun a =>
          if a = op.range then some snap else st.originalCellData a
        previewAppliedRanges := st.previewAppliedRanges ++ [op.range] }
    (updateDoc doc op.range (applyPreviewBorderMarker (applyOpContent g op)), st')

/-- Source function `applyPreview(ops)` (lines 955-1022): clear the previous session
state, then stage each op in order. -/
def applyPreview (doc : Doc) (ops : List ActionOp) : Doc × PreviewSession :=
  ops.foldl (fun (p : Doc × PreviewSession) op => applyPreviewStep p.1 p.2 op)
    (doc, emptySession)

/-- Source function `restoreRangeFormatting` (lines 924-948): apply each captured cell
style back through `applyCellStyle`; with `skipFill` the fill color is
removed from the style first. -/
def restoreRangeFormatting (g : Grid) (formatting : List (List CellStyle))
    (skipFill : Bool) : Grid :=
  g.zipWith (fun row frow =>
    row.zipWith (fun c st =>
      let styleToApply :=
        if skipFill then
          { st with fill := st.fill.map (fun fl => { fl with color := none }) }
        else st
      applyCellStyle c (some styleToApply)) frow) formatting

/-- The per-range restore of `rejectPreview` (lines 1073-1092): missing
snapshots are skipped with a warning; otherwise values are written back
and the captured formatting re-applied. -/
def rejectRestoreRange (doc : Doc) (snapshots : String → Option OriginalCellState)
    (addr : String) : Doc :=
  match snapshots addr with
  | none => doc
  | some snap =>
    let g := doc addr
    let g' := restoreRangeFormatting (writeValues g snap.values) snap.formatting false
    updateDoc doc addr g'

/-- Source function `rejectPreview()` (lines 1063-1108): a no-op when no ranges are
staged; otherwise restore each staged range in insertion order and clear
the session state afterwards. -/
def rejectPreview (doc : Doc) (st : PreviewSession) : Doc × PreviewSession :=
  if st.previewAppliedRanges = [] then (doc, st)
  else
    (st.previewAppliedRanges.foldl
      (fun d addr => rejectRestoreRange d st.originalCellData addr) doc,
     emptySession)

/-! ## Fallible accept / reject (error-handling model for §4.3)

`failAt addr` injects a host `DocumentAccessError` while processing range
`addr`; `renderOk = false` injects a failure of the final-plan rendering
step of `acceptPreview`.  An `Except.error` result carries the document
as mutated so far together with the session fields at the moment of the
throw (the source `catch` blocks rethrow without touching
`originalCellData` / `previewAppliedRanges`). -/

/-- The restore loop of `rejectPreview` with failure injection. -/
def rejectRangesFallible (failAt : String → Bool)
    (snapshots : String → Option OriginalCellState) :
    Doc → List String → Except Doc Doc
  | doc, [] => .ok doc
  | doc, addr :: rest =>
    match snapshots addr with
    | none => rejectRangesFallible failAt snapshots doc rest
    | some snap =>
      if failAt addr then .error doc
      else
        let g := doc addr
        let g' := restoreRangeFormatting (writeValues g snap.values) snap.formatting false
        rejectRangesFallible failAt snapshots (updateDoc doc addr g') rest

/-- Model of `rejectPreview()` with failure injection: the session is cleared only
after every range restored successfully. -/
def rejectPreviewFallible (failAt : String → Bool) (doc : Doc)
    (st : PreviewSession) : Except (Doc × PreviewSession) (Doc × PreviewSession) :=
  if st.previewAppliedRanges = [] then .ok (doc, st)
  else
    match rejectRangesFallible failAt st.originalCellData doc st.previewAppliedRanges with
    | .error d => .error (d, st)
    | .ok d => .ok (d, emptySession)

/-- Clearing the draft border of a staged range (`acceptPreview`,
lines 1035-1043). -/
def clearBorders (g : Grid) : Grid :=
  g.map (·.map (fun c => { c with border := { c.border with style := "None" } }))

/-- The border-clearing loop of `acceptPreview` with failure injection. -/
def clearBordersFallible (failAt : String → Bool) :
    Doc → List String → Except Doc Doc
  | doc, [] => .ok doc
  | doc, addr :: rest =>
    if failAt addr then .error doc
    else clearBordersFallible failAt (updateDoc doc addr (clearBorders (doc addr))) rest

/-- Model of `acceptPreview(backendResult, formatting)` (lines 1025-1060) with
failure injection: clear the draft borders, run the formatting projection
renderer (abstracted as `render`, which may fail), and clear the session
fields only after both steps succeed. -/
def acceptPreviewFallible (failAt : String → Bool) (renderOk : Bool)
    (render : Doc → Doc) (doc : Doc) (st : PreviewSession) :
    Except (Doc × PreviewSession) (Doc × PreviewSession) :=
  match clearBordersFallible failAt doc st.previewAppliedRanges with
  | .error d => .error (d, st)
  | .ok d =>
    if renderOk then .ok (render d, emptySession)
    else .error (d, st)

/-! ## Formatting projection renderer: output anchor
(`applyFormattedPlan`, SheetConnector.ts lines 537-555) -/

/-- JS `str.split(sep)` for a one-character separator, on char lists. -/
def splitOnCharL (sep : Char) : List Char → List (List Char)
  | [] => [[]]
  | c :: cs =>
    let rest := splitOnCharL sep cs
    if c = sep then [] :: rest
    else
      match rest with
      | r :: rs => (c :: r) :: rs
      | [] => [[c]]

/-- Uppercase A-Z test (the `[A-Z]+` character class of the regex). -/
def isUpperAZ (c : Char) : Bool := 65 ≤ c.toNat && c.toNat ≤ 90

/-- Decimal digit test (the `\d+` character class of the regex). -/
def isDigitC (c : Char) : Bool := 48 ≤ c.toNat && c.toNat ≤ 57

/-- Greedy span of a predicate (how `[A-Z]+` consumes its prefix). -/
def spanP (p : Char → Bool) : List Char → List Char × List Char
  | [] => ([], [])
  | c :: cs =>
    if p c then
      let (u, r) := spanP p cs
      (c :: u, r)
    else ([], c :: cs)

/-- JS `parseInt` on a digit string. -/
def digitsToNatL (l : List Char) : Nat :=
  l.foldl (fun n c => n * 10 + (c.toNat - 48)) 0

/-- One `LETTERS DIGITS` component of the address regex: a nonempty
uppercase prefix followed by a nonempty all-digit suffix. -/
def parseColRow (l : List Char) : Option (List Char × Nat) :=
  let (letters, rest) := spanP isUpperAZ l
  if letters = [] then none
  else if rest ≠ [] ∧ rest.all isDigitC then some (letters, digitsToNatL rest)
  else none

/-- The regex `([A-Z]+)(\d+)(?::([A-Z]+)(\d+))?` applied to a
well-formed A1 address: returns `(startCol, startRow, endCol, endRow)`;
for a single-cell address `endColStr = match[3] || startColStr` (line
545) duplicates the start. -/
def parseRangeA1 (l : List Char) : Option (List Char × Nat × List Char × Nat) :=
  match splitOnCharL ':' l with
  | [single] => (parseColRow single).map (fun p => (p.1, p.2, p.1, p.2))
  | [a, b] =>
    match parseColRow a, parseColRow b with
    | some p, some q => some (p.1, p.2, q.1, q.2)
    | _, _ => none
  | _ => none

/-- Lines 537-551 of `applyFormattedPlan`: take
`formatting.address.split('!')[1]` — `none` models the `TypeError` thrown
when the address has no `'!'` (index 1 is `undefined`) — parse it, and
anchor the output at column `colToNum(endColStr) + 2`, row `startRow`. -/
def computeOutputAnchor (formattingAddress : List Char) : Option (Nat × Nat) :=
  match (splitOnCharL '!' formattingAddress).get? 1 with
  | none => none
  | some inputAddress =>
    match parseRangeA1 inputAddress with
    | none => none
    | some (_, startRow, endColStr, _) => some (colToNumL endColStr + 2, startRow)

/-! ## Formatting projection renderer: cap table layout and totals
(`applyFormattedPlan`, SheetConnector.ts lines 703-839) -/

/-- One entry of `calculated_values.parsed_investors`. -/
structure Investor where
  name : String
  investment : Int := 0
deriving Repr

/-- The skip condition of the investor loop (line 737): an empty name or
the literal placeholder `"shareholder"`, case-insensitive. -/
def isSkippedInvestor (inv : Investor) : Bool :=
  inv.name = "" || toLowerJS inv.name = "shareholder"

/-- The investor-row writing loop (lines 735-771): starting at the row
below the cap-table header, emit one row per non-skipped investor.
Returns the list of written row numbers and the final `currentRow`. -/
def writeInvestorRows (startRow : Nat) (invs : List Investor) : List Nat × Nat :=
  invs.foldl
    (fun (acc : List Nat × Nat) inv =>
      if isSkippedInvestor inv then acc else (acc.1 ++ [acc.2], acc.2 + 1))
    ([], startRow)

/-- The full cap-table block layout (lines 703-830): header at
`capTableStartRow`, investor rows, then the `New Investors` and
`Option Pool` rows, then the `Total` row.  Returns the data rows written
between header and total, and the total row number. -/
def capTableLayout (capTableStartRow : Nat) (invs : List Investor) :
    List Nat × Nat :=
  let (invRows, r) := writeInvestorRows (capTableStartRow + 1) invs
  let newInvRow := r
  let poolRow := r + 1
  let totalRow := r + 2
  (invRows ++ [newInvRow, poolRow], totalRow)

/-- A `Total` row formula (lines 828-830):
`=SUM(col{capTableStartRow+1}:col{totalRow-1})`. -/
def totalFormula (colLetter : String) (capTableStartRow totalRow : Nat) : String :=
  "=SUM(" ++ colLetter ++ toString (capTableStartRow + 1) ++ ":" ++
    colLetter ++ toString (totalRow - 1) ++ ")"

/-- The rows a `Total` formula sums over: the inclusive interval from
`capTableStartRow + 1` to `totalRow - 1`. -/
def sumFormulaRows (capTableStartRow totalRow : Nat) : List Nat :=
  List.range' (capTableStartRow + 1) (totalRow - 1 + 1 - (capTableStartRow + 1))

/-! ## Formatting projection renderer: percent-format forcing
(`applyFormattedPlan`, lines 642-654, 762-767, 790-792, 813-815, 837-839) -/

/-- The guard of every forcing site:
`nf === 'General' || !nf?.includes('%')`. -/
def needsPctForce (nf : String) : Bool :=
  nf = "General" || !(includesChar nf '%')

/-- Lines 765-767: the `% Ownership` cell of an investor row is forced
to `'0.0%'`. -/
def forcePercentInvestorRow (cell : Cell) : Cell :=
  if needsPctForce cell.numberFormat then { cell with numberFormat := "0.0%" } else cell

/-- Lines 790-792: the `% Ownership` cell of the `New Investors` row is
forced to `'0.0%'`. -/
def forcePercentNewInvestors (cell : Cell) : Cell :=
  if needsPctForce cell.numberFormat then { cell with numberFormat := "0.0%" } else cell

/-- Lines 813-815: the `% Ownership` cell of the `Option Pool` row is
forced to `'0%'`. -/
def forcePercentOptionPool (cell : Cell) : Cell :=
  if needsPctForce cell.numberFormat then { cell with numberFormat := "0%" } else cell

/-- Lines 837-839: the `% Ownership` cell of the `Total` row is forced
to `'0.0%'`. -/
def forcePercentTotalRow (cell : Cell) : Cell :=
  if needsPctForce cell.numberFormat then { cell with numberFormat := "0.0%" } else cell

/-- Lines 651-653: the `Pool Pct (%)` input value cell is forced
to `'0%'`. -/
def forcePercentPoolPctInput (cell : Cell) : Cell :=
  if needsPctForce cell.numberFormat then { cell with numberFormat := "0%" } else cell

/-! ## Direct apply path: color-name writes
(`applyOps` lines 358-374 and `getColorHex` lines 409-422) -/

/-- Source function `getColorHex(colorName)`: the nine-entry color map, keyed by the
lowercased name; unknown names give `null`. -/
def getColorHex (colorName : String) : Option String :=
  let k := toLowerJS colorName
  if k = "blue" then some "#4F81BD"
  else if k = "green" then some "#9BBB59"
  else if k = "red" then some "#FF0000"
  else if k = "yellow" then some "#FFFF00"
  else if k = "orange" then some "#FFA500"
  else if k = "purple" then some "#800080"
  else if k = "gray" then some "#808080"
  else if k = "black" then some "#000000"
  else if k = "white" then some "#FFFFFF"
  else none

/-- The `write`-op branch of `applyOps` (lines 358-374): if
`values[0]?.[0]` is a string and `getColorHex(firstValue.toLowerCase())`
is truthy, set the range's font color to that hex and do not write the
values; otherwise write the values. -/
def applyOpsWriteStep (g : Grid) (vals : List (List CellValue)) : Grid :=
  match vals.head?.bind List.head? with
  | some (CellValue.str s) =>
    match getColorHex (toLowerJS s) with
    | some hex => g.map (·.map (fun c => { c with fontColor := hex }))
    | none => writeValues g vals
  | _ => writeValues g vals

/-- A one-cell document used to exercise stage-then-reject: `A1` holds
the number 1 with default styling and no border. -/
def previewDemoCell : Cell := { value := CellValue.num 1 }

/-- The document for the stage/reject run. -/
def previewDemoDoc : Doc := fun a => if a = "A1" then [[previewDemoCell]] else []

/-- One plain write op targeting `A1`. -/
def previewDemoOps : List ActionOp :=
  [{ id := "op-1", range := "A1", type := OpType.write,
     values := some [[CellValue.num 2]] }]

/-- The document and session after staging the op. -/
def previewDemoStaged : Doc × PreviewSession :=
  applyPreview previewDemoDoc previewDemoOps

/-- The document and session after staging then immediately rejecting. -/
def previewDemoRejected : Doc × PreviewSession :=
  rejectPreview previewDemoStaged.1 previewDemoStaged.2

/-- A one-cell document for the duplicate-staging run. -/
def dupDemoDoc : Doc :=
  fun a => if a = "A1" then [[{ value := CellValue.num 1 }]] else []

/-- Two write ops targeting the same range `A1` in one stage call. -/
def dupDemoOps : List ActionOp :=
  [{ id := "op-a", range := "A1", type := OpType.write,
     values := some [[CellValue.num 2]] },
   { id := "op-b", range := "A1", type := OpType.write,
     values := some [[CellValue.num 3]] }]

/-- A one-cell document for the C2 witness run. -/
def c2wDoc : Doc := fun a => if a = "A1" then [[{ value := CellValue.num 4 }]] else []

/-- Two write ops with distinct nonempty ranges for the C2 witness run. -/
def c2wOps : List ActionOp :=
  [{ id := "w1", range := "A1", type := OpType.write,
     values := some [[CellValue.num 5]] },
   { id := "w2", range := "B2", type := OpType.write,
     values := some [[CellValue.num 6]] }]

/-- The cell of the C3 witness document. -/
def failDemoCell : Cell := { value := CellValue.num 7 }

/-- A staged snapshot of that cell. -/
def failDemoSnap : OriginalCellState :=
  ⟨[[CellValue.num 7]], [[captureStyle failDemoCell]]⟩

/-- The C3 witness document. -/
def failDemoDoc : Doc := fun a => if a = "A1" then [[failDemoCell]] else []

/-- A session with one staged range `A1`. -/
def failDemoSession : PreviewSession :=
  { originalCellData := fun a => if a = "A1" then some failDemoSnap else none
    previewAppliedRanges := ["A1"] }

/-- The C3 witness document after the accept path cleared its borders. -/
def failDemoCleared : Doc :=
  updateDoc failDemoDoc "A1" (clearBorders (failDemoDoc "A1"))

/-- The C8 witness cell: non-default font and fill so the frame
conditions are visible. -/
def c8wCell : Cell :=
  { value := CellValue.num 3, bold := true, fillColor := "#ABCDEF" }

/-- The C10 witness cell. -/
def c10wCell : Cell := { value := CellValue.str "hello" }

/-! # Theorems settling the claims -/

theorem numToColL_zero : numToColL 0 = [] := by
  simp [numToColL]

theorem numToColL_step (a d : Nat) (hd1 : 1 ≤ d) (hd2 : d ≤ 26) :
    numToColL (a * 26 + d) = numToColL a ++ [Char.ofNat (65 + (d - 1))] := by
  have hne : a * 26 + d ≠ 0 := by omega
  rw [numToColL]
  simp only [hne, dite_false]
  have hsub : a * 26 + d - 1 = a * 26 + (d - 1) := by omega
  have hdiv : (a * 26 + d - 1) / 26 = a := by
    rw [hsub]
    rw [Nat.mul_comm a 26, Nat.mul_add_div (by omega)]
    have : (d - 1) / 26 = 0 := Nat.div_eq_of_lt (by omega)
    omega
  have hmod : (a * 26 + d - 1) % 26 = d - 1 := by
    rw [hsub]
    rw [Nat.mul_comm a 26, Nat.mul_add_mod]
    exact Nat.mod_eq_of_lt (by omega)
  rw [hdiv, hmod]

/-- An uppercase A-Z character round-trips through its base-26 digit. -/
theorem numToColL_digit_char (a : Nat) (c : Char)
    (h1 : 65 ≤ c.toNat) (h2 : c.toNat ≤ 90) :
    numToColL (a * 26 + (c.toNat - 64)) = numToColL a ++ [c] := by
  rw [numToColL_step a (c.toNat - 64) (by omega) (by omega)]
  have h65 : 65 + (c.toNat - 64 - 1) = c.toNat := by omega
  rw [h65, Char.ofNat_toNat]

/-- Round trip at the list level, for every list of A-Z characters. -/
theorem numToColL_colToNumL (s : List Char)
    (hs : ∀ c ∈ s, 65 ≤ c.toNat ∧ c.toNat ≤ 90) :
    numToColL (colToNumL s) = s := by
  induction s using List.reverseRecOn with
  | nil => exact numToColL_zero
  | append_singleton s' c ih =>
    have hc := hs c (by simp)
    have hs' : ∀ c ∈ s', 65 ≤ c.toNat ∧ c.toNat ≤ 90 := fun x hx =>
      hs x (by simp [hx])
    have hfold : colToNumL (s' ++ [c]) = colToNumL s' * 26 + (c.toNat - 64) := by
      unfold colToNumL
      rw [List.foldl_append]
      rfl
    rw [hfold, numToColL_digit_char _ _ hc.1 hc.2, ih hs']

/-- C7: for every string of uppercase letters A-Z,
`numToCol (colToNum x) = x`, and `colToNum` is the bijective base-26
decode with digits A=1..Z=26: `colToNum "A" = 1`, `colToNum "Z" = 26`,
`colToNum "AA" = 27`. -/
theorem claim_C7_colToNum_roundtrip (x : String)
    (hx : ∀ c ∈ x.data, 65 ≤ c.toNat ∧ c.toNat ≤ 90) :
    numToCol (colToNum x) = x ∧
    colToNum "A" = 1 ∧ colToNum "Z" = 26 ∧ colToNum "AA" = 27 := by
  refine ⟨?_, by decide, by decide, by decide⟩
  show numToCol (colToNum x) = x
  unfold numToCol colToNum
  rw [numToColL_colToNumL x.data hx]

/-- Witness for C7 at the concrete column string `"AB"`. -/
theorem claim_C7_witness :
    (∀ c ∈ ("AB" : String).data, 65 ≤ c.toNat ∧ c.toNat ≤ 90) ∧
    numToCol (colToNum "AB") = "AB" :=
  ⟨by decide, (claim_C7_colToNum_roundtrip "AB" (by decide)).1⟩

/-- The investor-row fold emits consecutive row numbers, one per
non-skipped investor. -/
theorem investorFold_eq (invs : List Investor) : ∀ (acc : List Nat) (r : Nat),
    invs.foldl
      (fun (acc : List Nat × Nat) inv =>
        if isSkippedInvestor inv then acc else (acc.1 ++ [acc.2], acc.2 + 1))
      (acc, r)
    = (acc ++ List.range' r (invs.filter (fun i => !(isSkippedInvestor i))).length,
       r + (invs.filter (fun i => !(isSkippedInvestor i))).length) := by
  induction invs with
  | nil => intro acc r; simp
  | cons inv rest ih =>
    intro acc r
    cases h : isSkippedInvestor inv with
    | true =>
      simp only [List.foldl_cons, if_pos h, List.filter_cons, h,
        Bool.not_true, List.filter]
      rw [ih]
      simp
    | false =>
      simp only [List.foldl_cons, h, Bool.false_eq_true, if_false,
        List.filter_cons, Bool.not_false, if_true, List.length_cons]
      rw [ih, List.range'_succ]
      simp [List.append_assoc, Nat.add_assoc, Nat.add_comm, Nat.add_left_comm]

/-- Closed form of `writeInvestorRows`. -/
theorem writeInvestorRows_eq (startRow : Nat) (invs : List Investor) :
    writeInvestorRows startRow invs
      = (List.range' startRow (invs.filter (fun i => !(isSkippedInvestor i))).length,
         startRow + (invs.filter (fun i => !(isSkippedInvestor i))).length) := by
  unfold writeInvestorRows
  rw [investorFold_eq]
  simp

/-- C5: the Total row's SUM formulas range over exactly the data rows
written between the Cap Table header row (exclusive) and the Total row
(exclusive): every non-skipped investor row plus the New Investors and
Option Pool rows, no more and no fewer, for any investor count. -/
theorem claim_C5_total_formulas_cover_data_rows (capStart : Nat)
    (invs : List Investor) :
    (capTableLayout capStart invs).1
      = sumFormulaRows capStart (capTableLayout capStart invs).2 := by
  unfold capTableLayout
  rw [writeInvestorRows_eq]
  unfold sumFormulaRows
  have harith :
      (capStart + 1 +
          (invs.filter (fun i => !(isSkippedInvestor i))).length + 2) - 1 + 1 -
        (capStart + 1)
      = (invs.filter (fun i => !(isSkippedInvestor i))).length + 2 := by omega
  simp only [harith]
  rw [show (invs.filter (fun i => !(isSkippedInvestor i))).length + 2
        = ((invs.filter (fun i => !(isSkippedInvestor i))).length + 1) + 1 from rfl]
  rw [List.range'_concat, List.range'_concat]
  simp [Nat.add_comm, Nat.add_assoc, Nat.add_left_comm]

/-- C6 counterexample: on a cell whose number format is not percent-like,
the Option Pool row's `% Ownership` cell is forced to `"0%"`, not the
claimed `"0.0%"`. -/
theorem claim_C6_counterexample :
    (forcePercentOptionPool { value := CellValue.num 0 }).numberFormat = "0%" ∧
    ("0%" : String) ≠ "0.0%" := by
  constructor
  · rfl
  · decide

/-- C6 (amended): whenever the resolved number format contains no percent
symbol, the renderer forces `"0.0%"` for the investor-row, New Investors
and Total `% Ownership` cells, and `"0%"` for the Option Pool row's
`% Ownership` cell and the Pool Pct input value cell. -/
theorem claim_C6_percent_forcing (cell : Cell)
    (h : includesChar cell.numberFormat '%' = false) :
    (forcePercentInvestorRow cell).numberFormat = "0.0%" ∧
    (forcePercentNewInvestors cell).numberFormat = "0.0%" ∧
    (forcePercentTotalRow cell).numberFormat = "0.0%" ∧
    (forcePercentOptionPool cell).numberFormat = "0%" ∧
    (forcePercentPoolPctInput cell).numberFormat = "0%" := by
  have hg : needsPctForce cell.numberFormat = true := by
    simp [needsPctForce, h]
  simp [forcePercentInvestorRow, forcePercentNewInvestors, forcePercentTotalRow,
        forcePercentOptionPool, forcePercentPoolPctInput, hg]

/-- Witness for C6 at a concrete non-percent cell. -/
theorem claim_C6_witness :
    (includesChar (Cell.numberFormat { value := CellValue.num 0 }) '%' = false) ∧
    (forcePercentInvestorRow { value := CellValue.num 0 }).numberFormat = "0.0%" :=
  ⟨by decide, (claim_C6_percent_forcing { value := CellValue.num 0 } (by decide)).1⟩

/-- C4 counterexample: for a 3x1 target range, the preview-staging path
assigns the 1x1 matrix `[[f]]`, not the full broadcast that the
direct-apply path produces. -/
theorem claim_C4_counterexample :
    applyPreviewFormulaMatrix "=B1*2" ≠ broadcastMatrix 3 1 "=B1*2" ∧
    applyOpsFormulaMatrix 3 1 "=B1*2" = broadcastMatrix 3 1 "=B1*2" := by
  constructor
  · decide
  · decide

/-- C4 (amended): for every non-degenerate target range, the direct-apply
path (`applyOps`) broadcasts the formula string to every cell, while the
preview-staging path (`applyPreview`) assigns the 1x1 matrix `[[f]]`,
which coincides with the broadcast exactly when the target is a single
cell. -/
theorem claim_C4_formula_broadcast (rows cols : Nat) (f : String)
    (hr : 1 ≤ rows) (hc : 1 ≤ cols) :
    applyOpsFormulaMatrix rows cols f = broadcastMatrix rows cols f ∧
    (applyPreviewFormulaMatrix f = broadcastMatrix rows cols f ↔
      rows = 1 ∧ cols = 1) := by
  constructor
  · unfold applyOpsFormulaMatrix broadcastMatrix
    split
    · rename_i hcase
      obtain ⟨h1, h2⟩ := hcase
      subst h1; subst h2
      simp
    · rfl
  · constructor
    · intro heq
      unfold applyPreviewFormulaMatrix broadcastMatrix at heq
      have hrows : rows = 1 := by
        have := congrArg List.length heq
        simpa using this.symm
      subst hrows
      have hinner : [f] = List.replicate cols f := by
        simpa using heq
      have hcols : cols = 1 := by
        have := congrArg List.length hinner
        simpa using this.symm
      exact ⟨rfl, hcols⟩
    · rintro ⟨h1, h2⟩
      subst h1; subst h2
      simp [applyPreviewFormulaMatrix, broadcastMatrix]

/-- Witness for C4 at a concrete 2x3 range. -/
theorem claim_C4_witness :
    (1 : Nat) ≤ 2 ∧
    applyOpsFormulaMatrix 2 3 "=X1" = broadcastMatrix 2 3 "=X1" :=
  ⟨by decide, (claim_C4_formula_broadcast 2 3 "=X1" (by decide) (by decide)).1⟩

/-- C1: staging a single disjoint write op and immediately rejecting
restores the range's values, but does NOT leave the document identical to
the pre-stage state: the dashed blue draft border applied by
`applyPreview` survives `rejectPreview`, because `applyCellStyle` never
writes the captured `borders` blob back and the reject path never clears
borders.  This evaluates the code at the failing input. -/
theorem claim_C1_reject_leaves_draft_border :
    captureValues (previewDemoRejected.1 "A1") = captureValues (previewDemoDoc "A1") ∧
    (previewDemoRejected.1 "A1").map (fun row => row.map (·.border)) = [[previewBorder]] ∧
    previewDemoCell.border ≠ previewBorder ∧
    previewDemoRejected.1 "A1" ≠ previewDemoDoc "A1" := by
  refine ⟨rfl, rfl, by decide, by decide⟩

/-- C2 counterexample: staging two ops on the same range leaves a
duplicate address in `previewAppliedRanges`, and the second op
re-snapshots the range: the stored rollback values are the first op's
output `[[2]]`, not the pre-stage values `[[1]]` — the first write's
pre-state is lost. -/
theorem claim_C2_counterexample :
    (applyPreview dupDemoDoc dupDemoOps).2.previewAppliedRanges = ["A1", "A1"] ∧
    ¬ (applyPreview dupDemoDoc dupDemoOps).2.previewAppliedRanges.Nodup ∧
    ((applyPreview dupDemoDoc dupDemoOps).2.originalCellData "A1").map
        (·.values) = some [[CellValue.num 2]] ∧
    captureValues (dupDemoDoc "A1") = [[CellValue.num 1]] ∧
    (some [[CellValue.num 2]] : Option (List (List CellValue)))
      ≠ some [[CellValue.num 1]] := by
  refine ⟨rfl, by decide, rfl, rfl, by decide⟩

/-- The staging fold records one `previewAppliedRanges` entry per op with
a nonempty range, in op order. -/
theorem applyPreview_go_ranges (ops : List ActionOp) :
    ∀ (doc : Doc) (st : PreviewSession),
      (ops.foldl (fun (p : Doc × PreviewSession) op => applyPreviewStep p.1 p.2 op)
          (doc, st)).2.previewAppliedRanges
        = st.previewAppliedRanges
            ++ (ops.filter (fun op => op.range ≠ "")).map (·.range) := by
  induction ops with
  | nil => intro doc st; simp
  | cons op rest ih =>
    intro doc st
    simp only [List.foldl_cons]
    by_cases h : op.range = ""
    · have hstep : applyPreviewStep doc st op = (doc, st) := by
        simp [applyPreviewStep, h]
      rw [hstep, ih]
      simp [List.filter_cons, h]
    · have hrec := ih (applyPreviewStep doc st op).1 (applyPreviewStep doc st op).2
      rw [show ((applyPreviewStep doc st op).1, (applyPreviewStep doc st op).2)
            = applyPreviewStep doc st op from rfl] at hrec
      rw [hrec]
      have h2 : (applyPreviewStep doc st op).2.previewAppliedRanges
          = st.previewAppliedRanges ++ [op.range] := by
        simp [applyPreviewStep, h]
      rw [h2]
      simp [List.filter_cons, h]

/-- The staging fold records a snapshot for an address exactly when one
was already present or some processed op targets it. -/
theorem applyPreview_go_snapshots (ops : List ActionOp) :
    ∀ (doc : Doc) (st : PreviewSession) (addr : String),
      ((ops.foldl (fun (p : Doc × PreviewSession) op => applyPreviewStep p.1 p.2 op)
          (doc, st)).2.originalCellData addr).isSome = true ↔
        (st.originalCellData addr).isSome = true ∨
          addr ∈ (ops.filter (fun op => op.range ≠ "")).map (·.range) := by
  induction ops with
  | nil => intro doc st addr; simp
  | cons op rest ih =>
    intro doc st addr
    simp only [List.foldl_cons]
    by_cases h : op.range = ""
    · have hstep : applyPreviewStep doc st op = (doc, st) := by
        simp [applyPreviewStep, h]
      rw [hstep, ih]
      simp [List.filter_cons, h]
    · have hrec := ih (applyPreviewStep doc st op).1 (applyPreviewStep doc st op).2 addr
      rw [show ((applyPreviewStep doc st op).1, (applyPreviewStep doc st op).2)
            = applyPreviewStep doc st op from rfl] at hrec
      rw [hrec]
      have hocd : (applyPreviewStep doc st op).2.originalCellData addr
          = if addr = op.range then
              some ⟨captureValues (doc op.range), captureFormatting (doc op.range)⟩
            else st.originalCellData addr := by
        simp [applyPreviewStep, h]
      rw [hocd]
      by_cases ha : addr = op.range
      · simp [ha, List.filter_cons, h]
      · simp [ha, List.filter_cons, h]

/-- C2 (amended): after `applyPreview`, `previewAppliedRanges` holds one
entry per op with a nonempty range, in op order — duplicate addresses are
retained, not removed — and every listed address has a snapshot entry.
(A range staged twice is re-snapshotted by the later op, which overwrites
the earlier snapshot; see the counterexample.) -/
theorem claim_C2_touched_ranges (doc : Doc) (ops : List ActionOp) :
    (applyPreview doc ops).2.previewAppliedRanges
      = (ops.filter (fun op => op.range ≠ "")).map (·.range) ∧
    ∀ addr ∈ (applyPreview doc ops).2.previewAppliedRanges,
      ((applyPreview doc ops).2.originalCellData addr).isSome = true := by
  have h1 := applyPreview_go_ranges ops doc emptySession
  constructor
  · simpa [applyPreview, emptySession] using h1
  · intro addr haddr
    have h2 := applyPreview_go_snapshots ops doc emptySession addr
    unfold applyPreview at haddr ⊢
    rw [h1] at haddr
    rw [h2]
    right
    simpa [emptySession] using haddr

/-- Witness for C2 at a two-op list with distinct nonempty ranges. -/
theorem claim_C2_witness :
    ("A1" ∈ (applyPreview c2wDoc c2wOps).2.previewAppliedRanges) ∧
    ((applyPreview c2wDoc c2wOps).2.originalCellData "A1").isSome = true :=
  ⟨by decide, (claim_C2_touched_ranges c2wDoc c2wOps).2 "A1" (by decide)⟩

/-- C3: if `acceptPreview` or `rejectPreview` fails partway (the host
document operation throws), the session fields `originalCellData` and
`previewAppliedRanges` are left exactly as they were — never cleared on
error — so the caller can retry `reject()` against the remaining
ranges. -/
theorem claim_C3_failure_preserves_session (failAt : String → Bool)
    (renderOk : Bool) (render : Doc → Doc) (doc : Doc) (st : PreviewSession)
    (d : Doc) (st' : PreviewSession) :
    (rejectPreviewFallible failAt doc st = .error (d, st') → st' = st) ∧
    (acceptPreviewFallible failAt renderOk render doc st = .error (d, st') → st' = st) := by
  constructor
  · intro herr
    unfold rejectPreviewFallible at herr
    by_cases h : st.previewAppliedRanges = []
    · rw [if_pos h] at herr
      exact absurd herr (by simp)
    · rw [if_neg h] at herr
      cases hr : rejectRangesFallible failAt st.originalCellData doc
          st.previewAppliedRanges with
      | error e =>
        rw [hr] at herr
        simp only [Except.error.injEq, Prod.mk.injEq] at herr
        exact herr.2.symm
      | ok v =>
        rw [hr] at herr
        exact absurd herr (by simp)
  · intro herr
    unfold acceptPreviewFallible at herr
    cases hc : clearBordersFallible failAt doc st.previewAppliedRanges with
    | error e =>
      rw [hc] at herr
      simp only [Except.error.injEq, Prod.mk.injEq] at herr
      exact herr.2.symm
    | ok v =>
      rw [hc] at herr
      dsimp only at herr
      by_cases hro : renderOk
      · rw [if_pos hro] at herr
        exact absurd herr (by simp)
      · rw [if_neg hro] at herr
        simp only [Except.error.injEq, Prod.mk.injEq] at herr
        exact herr.2.symm

/-- Witness for C3: a reject run whose first restore throws, and an
accept run whose render step throws, both leave the session intact. -/
theorem claim_C3_witness :
    rejectPreviewFallible (fun _ => true) failDemoDoc failDemoSession
        = .error (failDemoDoc, failDemoSession) ∧
    acceptPreviewFallible (fun _ => false) false (fun d => d) failDemoDoc
        failDemoSession = .error (failDemoCleared, failDemoSession) ∧
    failDemoSession = failDemoSession ∧ failDemoSession = failDemoSession :=
  ⟨rfl, rfl,
   (claim_C3_failure_preserves_session (fun _ => true) false (fun d => d)
      failDemoDoc failDemoSession failDemoDoc failDemoSession).1 rfl,
   (claim_C3_failure_preserves_session (fun _ => false) false (fun d => d)
      failDemoDoc failDemoSession failDemoCleared failDemoSession).2 rfl⟩

/-- C8 counterexample: a style whose only present field is
`wrapText: false` leaves the cell's `wrapText` at `true` — the present
field is NOT written, because the source guards it with JS truthiness
(`if (style.wrapText)`), refuting "each field present in the style is
written". -/
theorem claim_C8_counterexample :
    (applyCellStyle { value := CellValue.num 0, wrapText := true }
        (some { wrapText := some false })).wrapText = true ∧
    (true : Bool) ≠ false :=
  ⟨rfl, by decide⟩

/-- C8 (amended): `applyCellStyle` is a merge, not a replace: absent
fields leave the corresponding cell property untouched (and the captured
`borders` blob and the cell value are never written at all); present
boolean `font.bold` / `font.italic` are always written; other present
fields are written when truthy (non-empty string); `wrapText` is written
only when its present value is `true` — a present `false` is skipped; and
a style whose only present field is `numberFormat` changes nothing but
the number format, in particular not the font or fill. -/
theorem claim_C8_applyCellStyle_merge (cell : Cell) (s : CellStyle) :
    ((applyCellStyle cell (some s)).value = cell.value) ∧
    ((applyCellStyle cell (some s)).border = cell.border) ∧
    (s.font = none →
      (applyCellStyle cell (some s)).bold = cell.bold ∧
      (applyCellStyle cell (some s)).italic = cell.italic ∧
      (applyCellStyle cell (some s)).fontColor = cell.fontColor ∧
      (applyCellStyle cell (some s)).fontName = cell.fontName ∧
      (applyCellStyle cell (some s)).fontSize = cell.fontSize ∧
      (applyCellStyle cell (some s)).underline = cell.underline) ∧
    (s.fill = none → (applyCellStyle cell (some s)).fillColor = cell.fillColor) ∧
    (s.numberFormat = none →
      (applyCellStyle cell (some s)).numberFormat = cell.numberFormat) ∧
    (s.horizontalAlignment = none →
      (applyCellStyle cell (some s)).hAlign = cell.hAlign) ∧
    (s.verticalAlignment = none →
      (applyCellStyle cell (some s)).vAlign = cell.vAlign) ∧
    (s.wrapText = none → (applyCellStyle cell (some s)).wrapText = cell.wrapText) ∧
    (∀ f, s.font = some f →
      (∀ b, f.bold = some b → (applyCellStyle cell (some s)).bold = b) ∧
      (∀ b, f.italic = some b → (applyCellStyle cell (some s)).italic = b) ∧
      (∀ col, f.color = some col → col ≠ "" →
        (applyCellStyle cell (some s)).fontColor = col)) ∧
    (∀ fl, s.fill = some fl → ∀ col, fl.color = some col → col ≠ "" →
      (applyCellStyle cell (some s)).fillColor = col) ∧
    (∀ nf, s.numberFormat = some nf → nf ≠ "" →
      (applyCellStyle cell (some s)).numberFormat = nf) ∧
    (s.wrapText = some true → (applyCellStyle cell (some s)).wrapText = true) ∧
    (s.wrapText = some false →
      (applyCellStyle cell (some s)).wrapText = cell.wrapText) ∧
    (∀ nf, applyCellStyle cell (some { numberFormat := some nf }) =
      if nf = "" then cell else { cell with numberFormat := nf }) := by
  rcases s with ⟨font, fill, snf, sha, sva, swt, sbd⟩
  refine ⟨?_, ?_, ?_, ?_, ?_, ?_, ?_, ?_, ?_, ?_, ?_, ?_, ?_, ?_⟩
  · cases font <;> cases fill <;> simp [applyCellStyle]
  · cases font <;> cases fill <;> simp [applyCellStyle]
  · intro h
    rw [show font = none from h]
    cases fill <;> simp [applyCellStyle]
  · intro h
    rw [show fill = none from h]
    cases font <;> simp [applyCellStyle]
  · intro h
    rw [show snf = none from h]
    cases font <;> cases fill <;> simp [applyCellStyle, applyStr]
  · intro h
    rw [show sha = none from h]
    cases font <;> cases fill <;> simp [applyCellStyle, applyStr]
  · intro h
    rw [show sva = none from h]
    cases font <;> cases fill <;> simp [applyCellStyle, applyStr]
  · intro h
    rw [show swt = none from h]
    cases font <;> cases fill <;> simp [applyCellStyle, applyBoolTruthy]
  · intro f hf
    rw [show font = some f from hf]
    refine ⟨?_, ?_, ?_⟩
    · intro b hb
      cases fill <;>
        simp [applyCellStyle, applyBoolDefined, hb]
    · intro b hb
      cases fill <;>
        simp [applyCellStyle, applyBoolDefined, hb]
    · intro col hcol hne
      cases fill <;>
        simp [applyCellStyle, applyStr, hcol, hne]
  · intro fl hfl col hcol hne
    rw [show fill = some fl from hfl]
    cases font <;>
      simp [applyCellStyle, applyStr, hcol, hne]
  · intro nf hnf hne
    rw [show snf = some nf from hnf]
    cases font <;> cases fill <;>
      simp [applyCellStyle, applyStr, hne]
  · intro h
    rw [show swt = some true from h]
    cases font <;> cases fill <;> simp [applyCellStyle, applyBoolTruthy]
  · intro h
    rw [show swt = some false from h]
    cases font <;> cases fill <;> simp [applyCellStyle, applyBoolTruthy]
  · intro nf
    by_cases hnf : nf = ""
    · simp [applyCellStyle, applyStr, applyBoolTruthy, hnf]
    · simp [applyCellStyle, applyStr, applyBoolTruthy, hnf]

/-- Witness for C8: a style with only `numberFormat` present writes the
number format and leaves the fill untouched. -/
theorem claim_C8_witness :
    ("0.00" : String) ≠ "" ∧
    (applyCellStyle c8wCell (some { numberFormat := some "0.00" })).numberFormat
      = "0.00" ∧
    (applyCellStyle c8wCell (some { numberFormat := some "0.00" })).fillColor
      = c8wCell.fillColor := by
  have h := claim_C8_applyCellStyle_merge c8wCell { numberFormat := some "0.00" }
  obtain ⟨hv, hb, hfn, hfiln, hnfn, hhan, hvan, hwn, hfs, hfils, hnfs, hwt, hwf, hnfo⟩ := h
  exact ⟨by decide, hnfs "0.00" rfl (by decide), hfiln rfl⟩

/-- Splitting a list without the separator yields the singleton. -/
theorem splitOnCharL_of_not_mem (sep : Char) (l : List Char) (h : sep ∉ l) :
    splitOnCharL sep l = [l] := by
  induction l with
  | nil => rfl
  | cons c cs ih =>
    have hc : c ≠ sep := fun hc => h (hc ▸ List.mem_cons_self c cs)
    have hcs : sep ∉ cs := fun hm => h (List.mem_cons_of_mem _ hm)
    simp [splitOnCharL, hc, ih hcs]

/-- Splitting at the first separator occurrence peels off the prefix. -/
theorem splitOnCharL_append (sep : Char) (pre suf : List Char) (h : sep ∉ pre) :
    splitOnCharL sep (pre ++ sep :: suf) = pre :: splitOnCharL sep suf := by
  induction pre with
  | nil => simp [splitOnCharL]
  | cons c cs ih =>
    have hc : c ≠ sep := fun hc => h (hc ▸ List.mem_cons_self c cs)
    have hcs : sep ∉ cs := fun hm => h (List.mem_cons_of_mem _ hm)
    simp [splitOnCharL, hc, ih hcs]

/-- The greedy span consumes exactly a satisfying prefix when the
remainder starts with a failing character (or is empty). -/
theorem spanP_append (p : Char → Bool) (u r : List Char)
    (hu : ∀ c ∈ u, p c = true)
    (hr : ∀ c, r.head? = some c → p c = false) :
    spanP p (u ++ r) = (u, r) := by
  induction u with
  | nil =>
    cases r with
    | nil => rfl
    | cons c cs =>
      have := hr c rfl
      simp [spanP, this]
  | cons c cs ih =>
    have hc := hu c (List.mem_cons_self c cs)
    have hcs : ∀ x ∈ cs, p x = true := fun x hx => hu x (List.mem_cons_of_mem _ hx)
    simp [spanP, hc, ih hcs]

/-- A decimal digit is not an uppercase letter. -/
theorem digit_not_upper {c : Char} (h : isDigitC c = true) :
    isUpperAZ c = false := by
  simp only [isDigitC, Bool.and_eq_true, decide_eq_true_eq] at h
  simp only [isUpperAZ, Bool.and_eq_false_iff, decide_eq_false_iff_not]
  omega

/-- A well-formed `LETTERS DIGITS` component parses to its letters and
its decimal row number. -/
theorem parseColRow_wellformed (colL rowL : List Char)
    (hc : colL ≠ []) (hcall : ∀ c ∈ colL, isUpperAZ c = true)
    (hrne : rowL ≠ []) (hrall : ∀ c ∈ rowL, isDigitC c = true) :
    parseColRow (colL ++ rowL) = some (colL, digitsToNatL rowL) := by
  have hspan : spanP isUpperAZ (colL ++ rowL) = (colL, rowL) := by
    apply spanP_append _ _ _ hcall
    intro c hc'
    cases rowL with
    | nil => simp at hc'
    | cons r rs =>
      simp only [List.head?_cons, Option.some.injEq] at hc'
      subst hc'
      exact digit_not_upper (hrall r (List.mem_cons_self r rs))
  unfold parseColRow
  rw [hspan]
  simp [hc, hrne, List.all_eq_true.mpr hrall]

/-- C9 counterexample: a valid but non-sheet-qualified range address
(`"B2:D10"` parses as a range) makes the output-anchor computation fail —
`formatting.address.split('!')[1]` is `undefined` and the source throws —
refuting "sheet-qualified or not". -/
theorem claim_C9_counterexample :
    computeOutputAnchor ("B2:D10" : String).data = none ∧
    parseRangeA1 ("B2:D10" : String).data
      = some (['B'], 2, ['D'], 10) := by
  constructor
  · rfl
  · rfl

/-- C9 (amended): for every valid *sheet-qualified* input range address,
`applyFormattedPlan` computes the output anchor: the output block starts
two columns to the right of the input range's rightmost column
(`colToNum endCol + 2`), at the input range's starting row.  Both the
rectangle form `Sheet!C1R1:C2R2` and the single-cell form `Sheet!C1R1`
are covered; a sheet-unqualified address fails (see counterexample). -/
theorem claim_C9_output_anchor (sheet colA rowA colB rowB : List Char)
    (hsheet : '!' ∉ sheet)
    (hcA : colA ≠ []) (hcAall : ∀ c ∈ colA, isUpperAZ c = true)
    (hrA : rowA ≠ []) (hrAall : ∀ c ∈ rowA, isDigitC c = true)
    (hcB : colB ≠ []) (hcBall : ∀ c ∈ colB, isUpperAZ c = true)
    (hrB : rowB ≠ []) (hrBall : ∀ c ∈ rowB, isDigitC c = true) :
    computeOutputAnchor (sheet ++ '!' :: (colA ++ rowA ++ ':' :: (colB ++ rowB)))
      = some (colToNumL colB + 2, digitsToNatL rowA) ∧
    computeOutputAnchor (sheet ++ '!' :: (colA ++ rowA))
      = some (colToNumL colA + 2, digitsToNatL rowA) := by
  have hbangA : '!' ∉ colA ++ rowA := by
    intro hmem
    rcases List.mem_append.mp hmem with h | h
    · exact absurd (hcAall _ h) (by decide)
    · exact absurd (hrAall _ h) (by decide)
  have hcolonA : ':' ∉ colA ++ rowA := by
    intro hmem
    rcases List.mem_append.mp hmem with h | h
    · exact absurd (hcAall _ h) (by decide)
    · exact absurd (hrAall _ h) (by decide)
  have hcolonB : ':' ∉ colB ++ rowB := by
    intro hmem
    rcases List.mem_append.mp hmem with h | h
    · exact absurd (hcBall _ h) (by decide)
    · exact absurd (hrBall _ h) (by decide)
  have hbangBody : '!' ∉ colA ++ rowA ++ ':' :: (colB ++ rowB) := by
    intro hmem
    simp only [List.mem_append, List.mem_cons] at hmem
    rcases hmem with (h | h) | h | h | h
    · exact absurd (hcAall _ h) (by decide)
    · exact absurd (hrAall _ h) (by decide)
    · exact absurd h (by decide)
    · exact absurd (hcBall _ h) (by decide)
    · exact absurd (hrBall _ h) (by decide)
  have hprA := parseColRow_wellformed colA rowA hcA hcAall hrA hrAall
  have hprB := parseColRow_wellformed colB rowB hcB hcBall hrB hrBall
  constructor
  · unfold computeOutputAnchor
    rw [splitOnCharL_append '!' sheet _ hsheet,
        splitOnCharL_of_not_mem '!' _ hbangBody]
    have hpr : parseRangeA1 (colA ++ rowA ++ ':' :: (colB ++ rowB))
        = some (colA, digitsToNatL rowA, colB, digitsToNatL rowB) := by
      unfold parseRangeA1
      rw [show colA ++ rowA ++ ':' :: (colB ++ rowB)
            = (colA ++ rowA) ++ ':' :: (colB ++ rowB) from by
          rw [List.append_assoc]]
      rw [splitOnCharL_append ':' (colA ++ rowA) _ hcolonA,
          splitOnCharL_of_not_mem ':' _ hcolonB]
      dsimp only
      rw [hprA, hprB]
    simp only [List.get?_cons_succ, List.get?_cons_zero, hpr]
  · unfold computeOutputAnchor
    rw [splitOnCharL_append '!' sheet _ hsheet,
        splitOnCharL_of_not_mem '!' _ hbangA]
    have hpr : parseRangeA1 (colA ++ rowA)
        = some (colA, digitsToNatL rowA, colA, digitsToNatL rowA) := by
      unfold parseRangeA1
      rw [splitOnCharL_of_not_mem ':' _ hcolonA]
      dsimp only
      rw [hprA]
      rfl
    simp only [List.get?_cons_succ, List.get?_cons_zero, hpr]

/-- Witness for C9 at the concrete address `"Sheet1!B2:D10"`: the anchor
is column 6 (`F`, two right of `D`), row 2. -/
theorem claim_C9_witness :
    computeOutputAnchor ("Sheet1!B2:D10" : String).data = some (6, 2) := by
  have h := (claim_C9_output_anchor ("Sheet1" : String).data ['B'] ['2'] ['D']
    ['1', '0'] (by decide) (by decide) (by decide) (by decide) (by decide)
    (by decide) (by decide) (by decide) (by decide)).1
  rw [show ("Sheet1!B2:D10" : String).data
        = ("Sheet1" : String).data ++ '!' :: (['B'] ++ ['2'] ++ ':' :: (['D'] ++ ['1', '0']))
      from by decide]
  rw [h]
  rfl

/-- Setting only the font color of every cell leaves all cell values
unchanged. -/
theorem captureValues_fontColor_map (g : Grid) (hex : String) :
    captureValues (g.map (·.map (fun c => { c with fontColor := hex })))
      = captureValues g := by
  simp [captureValues, List.map_map, Function.comp]

/-- When the first value resolves to a known color, the `applyOps` write
branch recolors the range instead of writing the values. -/
theorem applyOpsWriteStep_color (g : Grid) (s : String) (vrow : List CellValue)
    (vrest : List (List CellValue)) (hex : String)
    (hg : getColorHex (toLowerJS s) = some hex) :
    applyOpsWriteStep g ((CellValue.str s :: vrow) :: vrest)
      = g.map (·.map (fun c => { c with fontColor := hex })) ∧
    captureValues (applyOpsWriteStep g ((CellValue.str s :: vrow) :: vrest))
      = captureValues g := by
  have hstep : applyOpsWriteStep g ((CellValue.str s :: vrow) :: vrest)
      = g.map (·.map (fun c => { c with fontColor := hex })) := by
    unfold applyOpsWriteStep
    simp only [List.head?_cons, Option.some_bind]
    rw [hg]
  exact ⟨hstep, by rw [hstep]; exact captureValues_fontColor_map g hex⟩

/-- C10: in `applyOps`, a `write` op whose first value is a string that
case-insensitively matches one of the nine recognized color names does
NOT write its values; instead the target range's font color is set to
the mapped hex color, leaving every cell value unchanged. -/
theorem claim_C10_color_name_write (g : Grid) (s : String)
    (vrow : List CellValue) (vrest : List (List CellValue))
    (h : toLowerJS s = "blue" ∨ toLowerJS s = "green" ∨ toLowerJS s = "red" ∨
      toLowerJS s = "yellow" ∨ toLowerJS s = "orange" ∨ toLowerJS s = "purple" ∨
      toLowerJS s = "gray" ∨ toLowerJS s = "black" ∨ toLowerJS s = "white") :
    ∃ hex, getColorHex (toLowerJS s) = some hex ∧
      applyOpsWriteStep g ((CellValue.str s :: vrow) :: vrest)
        = g.map (·.map (fun c => { c with fontColor := hex })) ∧
      captureValues (applyOpsWriteStep g ((CellValue.str s :: vrow) :: vrest))
        = captureValues g := by
  rcases h with h | h | h | h | h | h | h | h | h
  · have hg : getColorHex (toLowerJS s) = some "#4F81BD" := by rw [h]; decide
    exact ⟨_, hg, (applyOpsWriteStep_color g s vrow vrest _ hg).1,
      (applyOpsWriteStep_color g s vrow vrest _ hg).2⟩
  · have hg : getColorHex (toLowerJS s) = some "#9BBB59" := by rw [h]; decide
    exact ⟨_, hg, (applyOpsWriteStep_color g s vrow vrest _ hg).1,
      (applyOpsWriteStep_color g s vrow vrest _ hg).2⟩
  · have hg : getColorHex (toLowerJS s) = some "#FF0000" := by rw [h]; decide
    exact ⟨_, hg, (applyOpsWriteStep_color g s vrow vrest _ hg).1,
      (applyOpsWriteStep_color g s vrow vrest _ hg).2⟩
  · have hg : getColorHex (toLowerJS s) = some "#FFFF00" := by rw [h]; decide
    exact ⟨_, hg, (applyOpsWriteStep_color g s vrow vrest _ hg).1,
      (applyOpsWriteStep_color g s vrow vrest _ hg).2⟩
  · have hg : getColorHex (toLowerJS s) = some "#FFA500" := by rw [h]; decide
    exact ⟨_, hg, (applyOpsWriteStep_color g s vrow vrest _ hg).1,
      (applyOpsWriteStep_color g s vrow vrest _ hg).2⟩
  · have hg : getColorHex (toLowerJS s) = some "#800080" := by rw [h]; decide
    exact ⟨_, hg, (applyOpsWriteStep_color g s vrow vrest _ hg).1,
      (applyOpsWriteStep_color g s vrow vrest _ hg).2⟩
  · have hg : getColorHex (toLowerJS s) = some "#808080" := by rw [h]; decide
    exact ⟨_, hg, (applyOpsWriteStep_color g s vrow vrest _ hg).1,
      (applyOpsWriteStep_color g s vrow vrest _ hg).2⟩
  · have hg : getColorHex (toLowerJS s) = some "#000000" := by rw [h]; decide
    exact ⟨_, hg, (applyOpsWriteStep_color g s vrow vrest _ hg).1,
      (applyOpsWriteStep_color g s vrow vrest _ hg).2⟩
  · have hg : getColorHex (toLowerJS s) = some "#FFFFFF" := by rw [h]; decide
    exact ⟨_, hg, (applyOpsWriteStep_color g s vrow vrest _ hg).1,
      (applyOpsWriteStep_color g s vrow vrest _ hg).2⟩

/-- Witness for C10: writing `[["Blue"]]` over a one-cell range recolors
the font and keeps the stored value. -/
theorem claim_C10_witness :
    toLowerJS "Blue" = "blue" ∧
    applyOpsWriteStep [[c10wCell]] [[CellValue.str "Blue"]]
      = [[{ c10wCell with fontColor := "#4F81BD" }]] ∧
    captureValues (applyOpsWriteStep [[c10wCell]] [[CellValue.str "Blue"]])
      = captureValues [[c10wCell]] := by
  obtain ⟨hex, hg, hstep, hvals⟩ :=
    claim_C10_color_name_write [[c10wCell]] "Blue" [] [] (Or.inl (by decide))
  have hg' : (some "#4F81BD" : Option String) = some hex := by
    rw [← hg]
    decide
  injection hg' with hh
  subst hh
  refine ⟨by decide, ?_, hvals⟩
  rw [hstep]
  decide

end ExcelCopilot
